import Mathlib

/-!
Verification of the zstd-stream orchestration layer (src/compressor.ts,
src/index.ts) against its natural-language specification.

The foreign codec capability (`Module` in src/types.ts) is modelled as a
record of primitive operations over an abstract module state `S`: every
primitive both returns its value and threads the state, mirroring the fact
that the real WASM module is stateful.  The orchestration code
(`ZstdCompressor`, `ZstdDecompressor`, the facade functions and the stream
pipelines) is translated statement by statement from the TypeScript source.
-/

deriving instance DecidableEq for Except

namespace ZstdStream

/-- errors thrown by the orchestration layer; constructors follow the
`throw new Error(...)` sites in src/compressor.ts, carrying the message
text where it is relevant to the claims. -/
inductive ProcErr where
  /-- message "Not initialized" (process called before init) -/
  | notInitialized
  /-- message "Destroyed" (process called after destroy) -/
  | destroyedErr
  /-- messages "Failed to create compression context" and
  "Failed to create decompression context" -/
  | initFailed (msg : String)
  /-- messages "Failed to allocate source buffer" and
  "Failed to allocate output buffer" -/
  | allocFailed (msg : String)
  /-- messages "Compression failed: ..." and "Decompression failed: ..." -/
  | codec (msg : String)
  /-- message "Decompression stalled" -/
  | stall
  deriving DecidableEq

/-- LifecycleError per spec section 7: an operation invoked on an
already-destroyed engine instance, or before init has completed. -/
def ProcErr.isLifecycle : ProcErr → Bool
  | .notInitialized => true
  | .destroyedErr => true
  | _ => false

/-- the spec section 7 InitializationError class. -/
def ProcErr.isInitFailed : ProcErr → Bool
  | .initFailed _ => true
  | _ => false

/-- the foreign codec capability of src/types.ts.  `S` is the opaque module
state (WASM memory plus internal codec state); each primitive threads it.
`heapSet` and `heapSub` model `HEAPU8.set(data, ptr)` and copying
`HEAPU8.subarray(a, b)` out into a fresh array. -/
structure Module (S : Type) where
  createCCtx : S → S × Nat
  createDCtx : S → S × Nat
  freeCCtx : Nat → S → S
  freeDCtx : Nat → S → S
  initCStream : Nat → Int → S → S × Int
  initDStream : Nat → S → S × Int
  compressStream : Nat → Nat → Nat → Nat → Nat → Nat → S → S × Int
  decompressStream : Nat → Nat → Nat → Nat → Nat → S → S × Int
  cStreamOutSize : S → S × Nat
  dStreamOutSize : S → S × Nat
  getErrorName : Nat → S → String
  malloc : Nat → S → S × Nat
  free : Nat → S → S
  heapSet : Nat → List Nat → S → S
  heapSub : Nat → Nat → S → List Nat

/-- instance state of class ZstdCompressor (src/compressor.ts lines 18-28):
fields ctx, buffer, bufferSize, the configured level, and the BaseProcessor
fields destroyed and module (modelled by the flag `hasModule`, since the
module value itself is passed to each operation explicitly). -/
structure CState where
  level : Int
  ctx : Nat := 0
  buffer : Nat := 0
  bufferSize : Nat := 0
  destroyed : Bool := false
  hasModule : Bool := false
  deriving DecidableEq

/-- instance state of class ZstdDecompressor (src/compressor.ts lines 96-99). -/
structure DState where
  ctx : Nat := 0
  buffer : Nat := 0
  bufferSize : Nat := 0
  destroyed : Bool := false
  hasModule : Bool := false
  deriving DecidableEq

/-- ZstdCompressor.cleanup (src/compressor.ts lines 86-93): if the module is
present, free the context and the scratch buffer when nonzero and reset both
handles to zero. -/
def cleanupC {S : Type} (M : Module S) (c : CState) (s : S) : CState × S :=
  if c.hasModule then
    let s := if c.ctx ≠ 0 then M.freeCCtx c.ctx s else s
    let s := if c.buffer ≠ 0 then M.free c.buffer s else s
    ({ c with ctx := 0, buffer := 0 }, s)
  else (c, s)

/-- BaseProcessor.destroy for the compressor (src/compressor.ts lines 8-13):
run cleanup and set the destroyed flag, but only when not already destroyed. -/
def destroyC {S : Type} (M : Module S) (c : CState) (s : S) : CState × S :=
  if c.destroyed then (c, s)
  else
    let (c, s) := cleanupC M c s
    ({ c with destroyed := true }, s)

/-- ZstdDecompressor.cleanup (src/compressor.ts lines 187-194). -/
def cleanupD {S : Type} (M : Module S) (d : DState) (s : S) : DState × S :=
  if d.hasModule then
    let s := if d.ctx ≠ 0 then M.freeDCtx d.ctx s else s
    let s := if d.buffer ≠ 0 then M.free d.buffer s else s
    ({ d with ctx := 0, buffer := 0 }, s)
  else (d, s)

/-- BaseProcessor.destroy for the decompressor. -/
def destroyD {S : Type} (M : Module S) (d : DState) (s : S) : DState × S :=
  if d.destroyed then (d, s)
  else
    let (d, s) := cleanupD M d s
    ({ d with destroyed := true }, s)

/-- ZstdCompressor.process (src/compressor.ts lines 34-84), translated
branch by branch.  The result carries the updated instance state, the
updated module state, and either the produced chunk or the thrown error. -/
def processC {S : Type} (M : Module S) (c : CState) (s : S)
    (data : List Nat) (isLast : Bool) : CState × S × Except ProcErr (List Nat) :=
  if !c.hasModule then (c, s, .error .notInitialized)
  else if c.destroyed then (c, s, .error .destroyedErr)
  else
    let initRes : CState × S × Bool :=
      if c.ctx = 0 then
        let (s, h) := M.createCCtx s
        let c := { c with ctx := h }
        if h = 0 then
          let (c, s) := cleanupC M c s
          (c, s, false)
        else
          let (s, st) := M.initCStream h c.level s
          if st ≠ 0 then
            let (c, s) := cleanupC M c s
            (c, s, false)
          else (c, s, true)
      else (c, s, true)
    match initRes with
    | (c, s, false) => (c, s, .error (.initFailed ("Failed to create compression context")))
    | (c, s, true) =>
      if data.length = 0 ∧ isLast = false then (c, s, .ok [])
      else
        let (s, srcPtr) := M.malloc data.length s
        if srcPtr = 0 then (c, s, .error (.allocFailed ("Failed to allocate source buffer")))
        else
          let s := M.heapSet srcPtr data s
          let bufRes : CState × S × Bool :=
            if c.buffer = 0 then
              let (s, sz) := M.cStreamOutSize s
              let c := { c with bufferSize := sz }
              let (s, b) := M.malloc sz s
              let c := { c with buffer := b }
              (c, s, b ≠ 0)
            else (c, s, true)
          match bufRes with
          | (c, s, false) =>
            let s := M.free srcPtr s
            (c, s, .error (.allocFailed ("Failed to allocate output buffer")))
          | (c, s, true) =>
            let (s, result) :=
              M.compressStream c.ctx c.buffer c.bufferSize srcPtr data.length
                (if isLast then 2 else 0) s
            if result < 0 then
              let name := M.getErrorName (-result).toNat s
              let s := M.free srcPtr s
              (c, s, .error (.codec ("Compression failed: " ++ name)))
            else
              let out :=
                if result = 0 then []
                else M.heapSub c.buffer (c.buffer + result.toNat) s
              let s := M.free srcPtr s
              (c, s, .ok out)

/-- decode of the high 32 bits of the packed decompression result:
`Number(BigInt(result) >> 32n)` (src/compressor.ts line 149); the BigInt
arithmetic right shift is floor division. -/
def decodeConsumed (r : Int) : Int := Int.fdiv r 4294967296

/-- decode of the low 32 bits of the packed decompression result:
`Number(BigInt(result) & 0xffffffffn)` (src/compressor.ts line 150); a
BigInt bitwise and with a mask of 32 ones is reduction modulo 2 ^ 32. -/
def decodeProduced (r : Int) : Int := Int.emod r 4294967296

/-- bit length of a natural number, fuel-indexed so that the kernel can
evaluate it; fuel 64 covers every value below 2 ^ 64, in particular the
63-bit masked error codes. -/
def bitLenAux : Nat → Nat → Nat
  | 0, _ => 0
  | fuel + 1, n => if n = 0 then 0 else bitLenAux fuel (n / 2) + 1

/-- bit length of a natural number below 2 ^ 64. -/
def bitLen (n : Nat) : Nat := bitLenAux 64 n

/-- rounding of n to the nearest multiple of step, ties to the even
multiple — the IEEE-754 round-to-nearest-even rule at a fixed spacing. -/
def roundHalfEven (n step : Nat) : Nat :=
  let q := n / step
  let r := n % step
  if 2 * r < step then q * step
  else if step < 2 * r then (q + 1) * step
  else if q % 2 = 0 then q * step
  else (q + 1) * step

/-- the JavaScript `Number(bigint)` conversion on a non-negative integer
below 2 ^ 64: integers below 2 ^ 53 are exact doubles; above, the value is
rounded to the nearest representable double — a multiple of
2 ^ (bitLen n - 53), ties to even. -/
def natToDouble (n : Nat) : Nat :=
  if n < 9007199254740992 then n
  else roundHalfEven n (2 ^ (bitLen n - 53))

/-- decode of the error code of a negative packed result:
`Number(BigInt(result) & 0x7fffffffffffffffn)` (src/compressor.ts line 143);
the BigInt bitwise and with a mask of 63 ones is reduction modulo 2 ^ 63,
and the `Number()` conversion then rounds the masked value — which can be
as large as 2 ^ 63 - 1 — to the nearest IEEE-754 double. -/
def decodeErrorCode (r : Int) : Int :=
  ((natToDouble (Int.emod r 9223372036854775808).toNat : Nat) : Int)

/-- the decode loop of ZstdDecompressor.process (src/compressor.ts lines
130-165), written with explicit fuel: `none` means the fuel ran out before
the loop finished (the source loop has no bound of its own).  The loop
result is the ordered chunk list collected so far. -/
def dLoop {S : Type} (M : Module S) (ctx buffer bufferSize srcPtr dataLen : Nat) :
    Nat → Nat → List (List Nat) → S → Option (S × Except ProcErr (List (List Nat)))
  | 0, srcPos, chunks, s =>
    if srcPos < dataLen then none else some (s, .ok chunks)
  | fuel + 1, srcPos, chunks, s =>
    if srcPos < dataLen then
      let (s, r) := M.decompressStream ctx buffer bufferSize (srcPtr + srcPos) (dataLen - srcPos) s
      if r < 0 then
        let name := M.getErrorName (decodeErrorCode r).toNat s
        some (s, .error (.codec ("Decompression failed: " ++ name)))
      else
        let consumed := (decodeConsumed r).toNat
        let produced := (decodeProduced r).toNat
        if consumed = 0 ∧ produced = 0 then some (s, .error .stall)
        else
          let chunks :=
            if produced > 0 then chunks ++ [M.heapSub buffer (buffer + produced) s]
            else chunks
          dLoop M ctx buffer bufferSize srcPtr dataLen fuel (srcPos + consumed) chunks s
    else some (s, .ok chunks)

/-- ZstdDecompressor.concat (src/compressor.ts lines 173-185): empty list
gives the empty chunk, a single chunk is returned as is, otherwise the
chunks are copied into one contiguous array in order. -/
def concatChunks (chunks : List (List Nat)) : List Nat :=
  match chunks with
  | [] => []
  | [c] => c
  | cs => cs.flatten

/-- ZstdDecompressor.process (src/compressor.ts lines 105-171).  `fuel`
bounds the decode loop; `none` is the modelling artifact for a loop that
did not finish within the fuel. -/
def processD {S : Type} (M : Module S) (d : DState) (s : S)
    (data : List Nat) (fuel : Nat) :
    Option (DState × S × Except ProcErr (List Nat)) :=
  if !d.hasModule then some (d, s, .error .notInitialized)
  else if d.destroyed then some (d, s, .error .destroyedErr)
  else
    let initRes : DState × S × Bool :=
      if d.ctx = 0 then
        let (s, h) := M.createDCtx s
        let d := { d with ctx := h }
        if h = 0 then
          let (d, s) := cleanupD M d s
          (d, s, false)
        else
          let (s, st) := M.initDStream h s
          if st = 0 then
            let (d, s) := cleanupD M d s
            (d, s, false)
          else (d, s, true)
      else (d, s, true)
    match initRes with
    | (d, s, false) => some (d, s, .error (.initFailed ("Failed to create decompression context")))
    | (d, s, true) =>
      if data.length = 0 then some (d, s, .ok [])
      else
        let bufRes : DState × S × Bool :=
          if d.buffer = 0 then
            let (s, sz) := M.dStreamOutSize s
            let d := { d with bufferSize := sz }
            let (s, b) := M.malloc sz s
            let d := { d with buffer := b }
            (d, s, b ≠ 0)
          else (d, s, true)
        match bufRes with
        | (d, s, false) => some (d, s, .error (.allocFailed ("Failed to allocate output buffer")))
        | (d, s, true) =>
          let (s, srcPtr) := M.malloc data.length s
          if srcPtr = 0 then some (d, s, .error (.allocFailed ("Failed to allocate source buffer")))
          else
            let s := M.heapSet srcPtr data s
            match dLoop M d.ctx d.buffer d.bufferSize srcPtr data.length fuel 0 [] s with
            | none => none
            | some (s, .error e) =>
              let s := M.free srcPtr s
              some (d, s, .error e)
            | some (s, .ok chunks) =>
              let s := M.free srcPtr s
              some (d, s, .ok (concatChunks chunks))

/-- errors of the facade layer (src/index.ts): a construction-time
validation failure or a propagated engine error. -/
inductive FErr where
  /-- message "Compression level must be between 1 and 19" -/
  | validation (msg : String)
  | proc (e : ProcErr)
  deriving DecidableEq

/-- the ZstdCompressor constructor (src/compressor.ts lines 23-28): levels
outside [1, 19] throw before anything else happens. -/
def mkZstdCompressor (level : Int) : Except FErr CState :=
  if level < 1 ∨ level > 19 then
    .error (.validation ("Compression level must be between 1 and 19"))
  else .ok { level := level }

/-- the facade function compress (src/index.ts lines 23-39): default level
3, construct the compressor, init, process the whole buffer with
isLast = true, report the output length to onProgress on success, and
destroy in a finally block.  The third component is the ordered list of
values passed to onProgress. -/
def facadeCompress {S : Type} (M : Module S) (s : S) (input : List Nat)
    (levelOpt : Option Int) : S × Except FErr (List Nat) × List Nat :=
  let level := levelOpt.getD 3
  match mkZstdCompressor level with
  | .error e => (s, .error e, [])
  | .ok c0 =>
    let c0 := { c0 with hasModule := true }
    let (c1, s1, r) := processC M c0 s input true
    match r with
    | .ok out =>
      let (_, s2) := destroyC M c1 s1
      (s2, .ok out, [out.length])
    | .error e =>
      let (_, s2) := destroyC M c1 s1
      (s2, .error (.proc e), [])

/-- the facade function decompress (src/index.ts lines 110-126); `fuel`
bounds the decode loop as in `processD`. -/
def facadeDecompress {S : Type} (M : Module S) (s : S) (input : List Nat)
    (fuel : Nat) : Option (S × Except FErr (List Nat) × List Nat) :=
  let d0 : DState := { hasModule := true }
  match processD M d0 s input fuel with
  | none => none
  | some (d1, s1, r) =>
    let (_, s2) := destroyD M d1 s1
    match r with
    | .ok out => some (s2, .ok out, [out.length])
    | .error e => some (s2, .error (.proc e), [])

/-- one primitive invocation on the foreign module, for the instrumented
module instance below. -/
inductive Ev where
  | createCCtx
  | createDCtx
  | freeCCtx (h : Nat)
  | freeDCtx (h : Nat)
  | initCStream (h : Nat) (level : Int)
  | initDStream (h : Nat)
  | compressStep (ctx dst dstCap src srcLen endFlag : Nat)
  | decompressStep (ctx dst dstCap src srcLen : Nat)
  | cStreamOutSize
  | dStreamOutSize
  | mallocEv (size : Nat)
  | freeEv (p : Nat)
  | heapSetEv (ptr len : Nat)
  deriving DecidableEq

/-- an oracle choosing the values the foreign module returns, as a function
of the event trace so far; together with `traceModule` this represents an
arbitrary module whose primitive invocations are observable. -/
structure Oracle where
  createCCtx : List Ev → Nat := fun _ => 1
  createDCtx : List Ev → Nat := fun _ => 1
  initCStream : List Ev → Int := fun _ => 0
  initDStream : List Ev → Int := fun _ => 1
  compressStream : List Ev → Int := fun _ => 0
  decompressStream : List Ev → Int := fun _ => 0
  cStreamOutSize : List Ev → Nat := fun _ => 1024
  dStreamOutSize : List Ev → Nat := fun _ => 1024
  errorName : Nat → String := fun n => toString n
  malloc : List Ev → Nat → Nat := fun _ _ => 1
  heapSub : List Ev → Nat → Nat → List Nat := fun _ _ _ => []

/-- the instrumented module: its state is the trace of primitive
invocations, and returned values are chosen by the oracle. -/
def traceModule (O : Oracle) : Module (List Ev) where
  createCCtx s := (s ++ [.createCCtx], O.createCCtx s)
  createDCtx s := (s ++ [.createDCtx], O.createDCtx s)
  freeCCtx h s := s ++ [.freeCCtx h]
  freeDCtx h s := s ++ [.freeDCtx h]
  initCStream h lvl s := (s ++ [.initCStream h lvl], O.initCStream s)
  initDStream h s := (s ++ [.initDStream h], O.initDStream s)
  compressStream ctx dst dstCap src srcLen endFlag s :=
    (s ++ [.compressStep ctx dst dstCap src srcLen endFlag], O.compressStream s)
  decompressStream ctx dst dstCap src srcLen s :=
    (s ++ [.decompressStep ctx dst dstCap src srcLen], O.decompressStream s)
  cStreamOutSize s := (s ++ [.cStreamOutSize], O.cStreamOutSize s)
  dStreamOutSize s := (s ++ [.dStreamOutSize], O.dStreamOutSize s)
  getErrorName code _ := O.errorName code
  malloc size s := (s ++ [.mallocEv size], O.malloc s size)
  free p s := s ++ [.freeEv p]
  heapSet ptr data s := s ++ [.heapSetEv ptr data.length]
  heapSub a b s := O.heapSub s a b

/-- write the bytes `xs` into the memory `h` starting at address `p`. -/
def writeBytes (h : Nat → Nat) (p : Nat) (xs : List Nat) : Nat → Nat :=
  fun a => if p ≤ a ∧ a < p + xs.length then xs.getD (a - p) 0 else h a

/-- read `n` bytes of the memory `h` starting at address `p`. -/
def readBytes (h : Nat → Nat) (p n : Nat) : List Nat :=
  (List.range n).map (fun i => h (p + i))

/-- 4-byte little-endian frame header encoding a payload length. -/
def enc4 (n : Nat) : List Nat :=
  [n % 256, n / 256 % 256, n / 65536 % 256, n / 16777216 % 256]

/-- decode of a 4-byte little-endian frame header. -/
def dec4 (l : List Nat) : Nat :=
  l.getD 0 0 + 256 * l.getD 1 0 + 65536 * l.getD 2 0 + 16777216 * l.getD 3 0

/-- Modelled from the spec: the module state of the codec engine, which is
not under src (the engine is the embedded WASM zstd build; src only holds
its interface declaration in src/types.ts and its callers).  It consists of
a byte-addressable memory, a bump allocator pointer and a context counter,
both starting above zero so that handles are never null. -/
structure MS where
  heap : Nat → Nat
  nextPtr : Nat
  nextCtx : Nat

/-- Modelled from the spec: a concrete codec engine realizing the boundary
contract of spec section 6 — the compressed byte sequence is an opaque,
self-describing framed stream (here: a 4-byte little-endian length header
followed by the payload), a compression step returns the number of output
bytes written, and a decompression step returns consumed bytes in the high
32 bits and produced bytes in the low 32 bits of the packed result. -/
def specModule : Module MS where
  createCCtx s := ({ s with nextCtx := s.nextCtx + 1 }, s.nextCtx)
  createDCtx s := ({ s with nextCtx := s.nextCtx + 1 }, s.nextCtx)
  freeCCtx _ s := s
  freeDCtx _ s := s
  initCStream _ _ s := (s, 0)
  initDStream _ s := (s, 1)
  compressStream _ dst _ src srcLen _ s :=
    let input := readBytes s.heap src srcLen
    let frame := enc4 srcLen ++ input
    ({ s with heap := writeBytes s.heap dst frame }, (frame.length : Int))
  decompressStream _ dst _ src srcLen s :=
    if srcLen < 4 then (s, 0)
    else
      let n := dec4 (readBytes s.heap src 4)
      if srcLen < 4 + n then (s, 0)
      else
        let payload := readBytes s.heap (src + 4) n
        ({ s with heap := writeBytes s.heap dst payload },
          (((4 + n) * 4294967296 + n : Nat) : Int))
  cStreamOutSize s := (s, 1024)
  dStreamOutSize s := (s, 1024)
  getErrorName code _ := toString code
  malloc size s := ({ s with nextPtr := s.nextPtr + size + 1 }, s.nextPtr)
  free _ s := s
  heapSet ptr data s := { s with heap := writeBytes s.heap ptr data }
  heapSub a b s := readBytes s.heap a (b - a)

/-- the initial module state of the spec-modelled engine. -/
def ms0 : MS := { heap := fun _ => 0, nextPtr := 1, nextCtx := 1 }

/-- the round-trip composition of the claim: whole-buffer compress at the
default level followed by whole-buffer decompress of its output, on the
spec-modelled engine; `none` when either call fails. -/
def specRoundTrip (b : List Nat) : Option (List Nat) :=
  match facadeCompress specModule ms0 b none with
  | (s1, .ok out, _) =>
    match facadeDecompress specModule s1 out 2 with
    | some (_, .ok res, _) => some res
    | _ => none
  | _ => none

/-- state of the compressStream pipeline (src/index.ts lines 41-107): the
remaining upstream chunks, the closure variables inputDone and
totalWritten, the compressor and module state, and the observable outputs:
the values reported to onProgress and the chunks enqueued downstream, plus
whether the downstream was closed or errored. -/
structure PState (S : Type) where
  upstream : List (List Nat)
  inputDone : Bool := false
  totalWritten : Nat := 0
  comp : CState
  ms : S
  progress : List Nat := []
  emitted : List (List Nat) := []
  closed : Bool := false
  errored : Bool := false

/-- the inner read loop of one compressStream pull (src/index.ts lines
65-93), by recursion on the remaining upstream chunks.  The second result
component logs the output of every `process` call of this pull, in order. -/
def pullCLoop {S : Type} (M : Module S) (upstream : List (List Nat))
    (st : PState S) (log : List (List Nat)) : PState S × List (List Nat) :=
  match upstream with
  | [] =>
    let (c1, s1, r) := processC M st.comp st.ms [] true
    match r with
    | .error _ =>
      let (c2, s2) := destroyC M c1 s1
      ({ st with upstream := [], inputDone := true, comp := c2, ms := s2, errored := true }, log)
    | .ok chunk =>
      let log := log ++ [chunk]
      let st :=
        if chunk.length > 0 then
          { st with
            totalWritten := st.totalWritten + chunk.length,
            emitted := st.emitted ++ [chunk],
            progress := st.progress ++ [st.totalWritten + chunk.length] }
        else st
      let (c2, s2) := destroyC M c1 s1
      ({ st with upstream := [], comp := c2, ms := s2, closed := true, inputDone := true }, log)
  | v :: rest =>
    let (c1, s1, r) := processC M st.comp st.ms v false
    match r with
    | .error _ =>
      let (c2, s2) := destroyC M c1 s1
      ({ st with upstream := rest, inputDone := true, comp := c2, ms := s2, errored := true }, log)
    | .ok chunk =>
      let log := log ++ [chunk]
      if chunk.length > 0 then
        ({ st with
          upstream := rest, comp := c1, ms := s1,
          totalWritten := st.totalWritten + chunk.length,
          emitted := st.emitted ++ [chunk],
          progress := st.progress ++ [st.totalWritten + chunk.length] }, log)
      else
        pullCLoop M rest { st with upstream := rest, comp := c1, ms := s1 } log

/-- one pull of the compressStream pipeline (src/index.ts lines 59-100):
a no-op once inputDone is set, otherwise the inner read loop. -/
def pullC {S : Type} (M : Module S) (st : PState S) : PState S × List (List Nat) :=
  if st.inputDone then (st, [])
  else pullCLoop M st.upstream st []

/-- the downstream consumer repeatedly pulling from the compressStream
pipeline until it is done (or the fuel runs out). -/
def runC {S : Type} (M : Module S) : Nat → PState S → PState S
  | 0, st => st
  | fuel + 1, st =>
    if st.inputDone then st
    else runC M fuel (pullC M st).1

/-- state of the decompressStream pipeline (src/index.ts lines 129-184). -/
structure DPState (S : Type) where
  upstream : List (List Nat)
  inputDone : Bool := false
  totalWritten : Nat := 0
  decomp : DState
  ms : S
  progress : List Nat := []
  emitted : List (List Nat) := []
  closed : Bool := false
  errored : Bool := false

/-- one pull of the decompressStream pipeline (src/index.ts lines 147-177):
exactly one upstream read; end of input closes the stream, an error (or a
decode loop exceeding its fuel, a modelling artifact) destroys the engine
and errors the stream, and a non-empty produced chunk is enqueued with a
progress report while an empty one is silently dropped. -/
def pullD {S : Type} (M : Module S) (fuelD : Nat) (st : DPState S) : DPState S :=
  if st.inputDone then st
  else
    match st.upstream with
    | [] =>
      let (d2, s2) := destroyD M st.decomp st.ms
      { st with inputDone := true, closed := true, decomp := d2, ms := s2 }
    | v :: rest =>
      match processD M st.decomp st.ms v fuelD with
      | none =>
        let (d2, s2) := destroyD M st.decomp st.ms
        { st with upstream := rest, inputDone := true, decomp := d2, ms := s2, errored := true }
      | some (d1, s1, .error _) =>
        let (d2, s2) := destroyD M d1 s1
        { st with upstream := rest, inputDone := true, decomp := d2, ms := s2, errored := true }
      | some (d1, s1, .ok chunk) =>
        if chunk.length > 0 then
          { st with
            upstream := rest, decomp := d1, ms := s1,
            totalWritten := st.totalWritten + chunk.length,
            emitted := st.emitted ++ [chunk],
            progress := st.progress ++ [st.totalWritten + chunk.length] }
        else { st with upstream := rest, decomp := d1, ms := s1 }

/-- the downstream consumer repeatedly pulling from the decompressStream
pipeline. -/
def runD {S : Type} (M : Module S) (fuelD : Nat) : Nat → DPState S → DPState S
  | 0, st => st
  | fuel + 1, st =>
    if st.inputDone then st
    else runD M fuelD fuel (pullD M fuelD st)

/-- whether a compressor process result is an InitializationError. -/
def isInitFailureC {S : Type} (x : CState × S × Except ProcErr (List Nat)) : Bool :=
  match x.2.2 with
  | .error e => e.isInitFailed
  | .ok _ => false

/-- whether a decompressor process result is an InitializationError. -/
def isInitFailureD {S : Type} (x : Option (DState × S × Except ProcErr (List Nat))) : Bool :=
  match x with
  | some (_, _, .error e) => e.isInitFailed
  | _ => false

/-- number of compression-context frees in a trace. -/
def countFreeCCtx (tr : List Ev) : Nat :=
  tr.countP (fun e => match e with | .freeCCtx _ => true | _ => false)

/-- number of decompression-context frees in a trace. -/
def countFreeDCtx (tr : List Ev) : Nat :=
  tr.countP (fun e => match e with | .freeDCtx _ => true | _ => false)

/-- number of foreign-memory frees in a trace. -/
def countFreeEv (tr : List Ev) : Nat :=
  tr.countP (fun e => match e with | .freeEv _ => true | _ => false)

/-- running totals of the chunk lengths of a list of chunks, starting from
`t`: the value reported to onProgress after each chunk. -/
def cumSumsFrom (t : Nat) : List (List Nat) → List Nat
  | [] => []
  | c :: cs => (t + c.length) :: cumSumsFrom (t + c.length) cs

/-- total length of a list of chunks. -/
def sumLens (ls : List (List Nat)) : Nat := (ls.map List.length).sum

/-- initial state of the compressStream pipeline: upstream chunks, a fresh
initialized compressor at the given level, and a module state. -/
def initPState {S : Type} (up : List (List Nat)) (level : Int) (s : S) : PState S :=
  { upstream := up, comp := { level := level, hasModule := true }, ms := s }

/-- initial state of the decompressStream pipeline. -/
def initDPState {S : Type} (up : List (List Nat)) (s : S) : DPState S :=
  { upstream := up, decomp := { hasModule := true }, ms := s }

/-- an engine whose decompression step always returns the packed value -5,
with a numeric-to-string error name resolver. -/
def oracleNeg5 : Oracle := { decompressStream := fun _ => -5 }

/-- an engine whose decompression step always reports zero bytes consumed
and one byte produced (packed value 1). -/
def oracleZeroConsume : Oracle := { decompressStream := fun _ => 1 }

/-- an engine whose decompression step always reports one byte consumed and
zero bytes produced (packed value 2 ^ 32). -/
def oracleOneConsume : Oracle := { decompressStream := fun _ => 4294967296 }

/-- an engine whose decompression step always reports zero consumed and
zero produced (packed value 0). -/
def oracleStall : Oracle := { decompressStream := fun _ => 0 }

/-- termination of the decode loop on a given engine and input length,
starting from offset 0 with an empty chunk list and empty trace: some
amount of fuel lets the loop finish. -/
def dLoopTerminatesOn (O : Oracle) (dataLen : Nat) : Prop :=
  ∃ fuel, (dLoop (traceModule O) 1 2 1024 4 dataLen fuel 0 [] []).isSome

/-! Theorems -/

/-- C2: for every compression level outside [1, 19], constructing a
compression engine fails with a ValidationError, and the facade compress
call with that level fails with the same ValidationError with the module
trace unchanged — no foreign resource (context, scratch buffer, input
copy) is allocated; and when no level is given, level 3 is used. -/
theorem c2_level_validation (lvl : Int) (h : lvl < 1 ∨ 19 < lvl) :
    mkZstdCompressor lvl
      = .error (.validation ("Compression level must be between 1 and 19")) ∧
    (∀ (O : Oracle) (tr : List Ev) (input : List Nat),
      facadeCompress (traceModule O) tr input (some lvl)
        = (tr, .error (.validation ("Compression level must be between 1 and 19")), [])) ∧
    (∀ (T : Type) (M : Module T) (s : T) (input : List Nat),
      facadeCompress M s input none = facadeCompress M s input (some 3)) := by
  have hmk : mkZstdCompressor lvl
      = .error (.validation ("Compression level must be between 1 and 19")) := by
    unfold mkZstdCompressor
    rw [if_pos]
    omega
  refine ⟨hmk, ?_, ?_⟩
  · intro O tr input
    unfold facadeCompress
    simp only [Option.getD_some, hmk]
  · intro T M s input
    rfl

/-- C2 witness: level 20 is rejected by the constructor and by the facade
before any engine primitive runs. -/
theorem c2_level_validation_witness :
    mkZstdCompressor 20
      = .error (.validation ("Compression level must be between 1 and 19")) ∧
    facadeCompress (traceModule {}) [] [5] (some 20)
      = ([], .error (.validation ("Compression level must be between 1 and 19")), []) :=
  ⟨(c2_level_validation 20 (by decide)).1,
   (c2_level_validation 20 (by decide)).2.1 {} [] [5]⟩

/-- C5 counterexample: on the first process call with empty data and
isLast = false, the engine IS touched: the lazy context creation and
stream initialization run before the empty-input fast path, so the trace
gains two engine primitive invocations. -/
theorem c5_counterexample :
    (processC (traceModule {}) { level := 3, hasModule := true } [] [] false).2.1
      = [Ev.createCCtx, Ev.initCStream 1 3] := by decide

/-- C5 amended: once the compression context already exists, a process
call with empty data and isLast = false returns an empty chunk without
touching the engine: the instance state, the module state (hence the event
trace for any instrumented module) and the output are exactly unchanged,
and no allocation or compression step occurs. -/
theorem c5_empty_fast_path {S : Type} (M : Module S) (c : CState) (s : S)
    (h1 : c.hasModule = true) (h2 : c.destroyed = false) (h3 : c.ctx ≠ 0) :
    processC M c s [] false = (c, s, .ok []) := by
  unfold processC
  simp [h1, h2, h3]

/-- C5 witness: a compressor whose context handle is 5 processes the empty
non-final chunk as a pure no-op. -/
theorem c5_empty_fast_path_witness :
    processC (traceModule {}) { level := 3, hasModule := true, ctx := 5 } [] [] false
      = ({ level := 3, hasModule := true, ctx := 5 }, [], .ok []) :=
  c5_empty_fast_path (traceModule {}) { level := 3, hasModule := true, ctx := 5 } []
    rfl rfl (by decide)

/-- C4: if a decompression step decodes to consumed = 0 and produced = 0
simultaneously, the whole call aborts with a StallError at that step: the
loop returns immediately with the module state exactly as the step left
it, so no further loop iteration or engine primitive occurs, for any
remaining fuel. -/
theorem c4_stall_detection {T : Type} (M : Module T)
    (ctx buffer bufferSize srcPtr dataLen fuel srcPos : Nat)
    (chunks : List (List Nat)) (s s' : T) (r : Int)
    (hpos : srcPos < dataLen)
    (hstep : M.decompressStream ctx buffer bufferSize (srcPtr + srcPos) (dataLen - srcPos) s
      = (s', r))
    (hr : 0 ≤ r)
    (hc : (decodeConsumed r).toNat = 0)
    (hp : (decodeProduced r).toNat = 0) :
    dLoop M ctx buffer bufferSize srcPtr dataLen (fuel + 1) srcPos chunks s
      = some (s', .error .stall) := by
  unfold dLoop
  rw [if_pos hpos, hstep]
  simp only
  rw [if_neg (by omega), hc, hp]
  simp

/-- C4 witness: an engine step returning the packed value 0 stalls the
decode loop at once, leaving exactly one step event in the trace. -/
theorem c4_stall_detection_witness :
    dLoop (traceModule oracleStall) 1 2 1024 4 3 7 0 [] []
      = some ([Ev.decompressStep 1 2 1024 4 3], .error .stall) :=
  c4_stall_detection (traceModule oracleStall) 1 2 1024 4 3 6 0 [] [] _ 0
    (by decide) rfl (by decide) (by decide) (by decide)

/-- C3 counterexample: for the packed step result -5 the decode loop
passes the error code 2 ^ 63 = 9223372036854775808 to the engine's
errorName — the packed value's low 63 bits 2 ^ 63 - 5, rounded to the
nearest IEEE-754 double by the Number() conversion — and not the
magnitude 5 that the claim states. -/
theorem c3_counterexample :
    (dLoop (traceModule oracleNeg5) 1 2 1024 4 3 1 0 [] []
      = some ([Ev.decompressStep 1 2 1024 4 3],
          .error (.codec ("Decompression failed: "
            ++ oracleNeg5.errorName 9223372036854775808)))) ∧
    (dLoop (traceModule oracleNeg5) 1 2 1024 4 3 1 0 [] []
      ≠ some ([Ev.decompressStep 1 2 1024 4 3],
          .error (.codec ("Decompression failed: " ++ oracleNeg5.errorName 5)))) := by
  constructor
  · decide
  · decide

/-- C3 amended: for a packed 64-bit step result r, if r is non-negative
(and below 2 ^ 64) the loop decodes consumed as the high 32 bits and
produced as the low 32 bits of r; if r is negative the call fails with a
CodecError whose error code — the value passed to the engine's
errorName — is the low 63 bits of r (r + 2 ^ 63 for -2 ^ 63 ≤ r < 0)
rounded to the nearest IEEE-754 double by the Number() conversion; the
rounding is the identity exactly when those low 63 bits are below 2 ^ 53.
In no case is the error code the magnitude of r. -/
theorem c3_packed_decode {T : Type} (M : Module T)
    (ctx buffer bufferSize srcPtr dataLen fuel srcPos : Nat)
    (chunks : List (List Nat)) (s s' : T) (r : Int)
    (hpos : srcPos < dataLen)
    (hstep : M.decompressStream ctx buffer bufferSize (srcPtr + srcPos) (dataLen - srcPos) s
      = (s', r)) :
    (0 ≤ r → r < 18446744073709551616 →
      (decodeConsumed r).toNat = r.toNat / 4294967296 ∧
      (decodeProduced r).toNat = r.toNat % 4294967296) ∧
    (r < 0 →
      dLoop M ctx buffer bufferSize srcPtr dataLen (fuel + 1) srcPos chunks s
        = some (s', .error (.codec ("Decompression failed: "
            ++ M.getErrorName (decodeErrorCode r).toNat s'))) ∧
      (-9223372036854775808 ≤ r →
        decodeErrorCode r
          = ((natToDouble (r + 9223372036854775808).toNat : Nat) : Int) ∧
        (r + 9223372036854775808 < 9007199254740992 →
          decodeErrorCode r = r + 9223372036854775808))) := by
  constructor
  · intro h0 _
    unfold decodeConsumed decodeProduced
    rw [Int.fdiv_eq_ediv _ (by decide)]
    constructor
    · omega
    · show (r % 4294967296).toNat = r.toNat % 4294967296
      omega
  · intro hneg
    constructor
    · unfold dLoop
      rw [if_pos hpos, hstep]
      simp only
      rw [if_pos hneg]
    · intro hlb
      have hmod : Int.emod r 9223372036854775808 = r + 9223372036854775808 := by
        show r % 9223372036854775808 = r + 9223372036854775808
        omega
      constructor
      · unfold decodeErrorCode
        rw [hmod]
      · intro hsmall
        unfold decodeErrorCode
        rw [hmod]
        unfold natToDouble
        rw [if_pos (by omega)]
        omega

/-- C3 witness: the packed value 3 * 2 ^ 32 + 4 decodes to 3 bytes
consumed and 4 bytes produced. -/
theorem c3_packed_decode_witness :
    (decodeConsumed 12884901892).toNat = 3 ∧ (decodeProduced 12884901892).toNat = 4 := by
  have h := (c3_packed_decode (traceModule { decompressStream := fun _ => 12884901892 })
    1 2 1024 4 3 0 0 [] [] [Ev.decompressStep 1 2 1024 4 3] 12884901892
    (by decide) rfl).1 (by decide) (by decide)
  exact ⟨h.1.trans (by decide), h.2.trans (by decide)⟩

lemma destroyC_fields {S : Type} (M : Module S) (c : CState) (s : S) :
    (destroyC M c s).1.destroyed = true ∧ (destroyC M c s).1.hasModule = c.hasModule := by
  unfold destroyC cleanupC
  by_cases h : c.destroyed
  · simp [h]
  · by_cases hm : c.hasModule <;> simp [h, hm]

lemma destroyD_fields {S : Type} (M : Module S) (d : DState) (s : S) :
    (destroyD M d s).1.destroyed = true ∧ (destroyD M d s).1.hasModule = d.hasModule := by
  unfold destroyD cleanupD
  by_cases h : d.destroyed
  · simp [h]
  · by_cases hm : d.hasModule <;> simp [h, hm]

lemma destroyC_of_destroyed {S : Type} (M : Module S) (c : CState) (s : S)
    (h : c.destroyed = true) : destroyC M c s = (c, s) := by
  unfold destroyC
  rw [if_pos h]

lemma destroyD_of_destroyed {S : Type} (M : Module S) (d : DState) (s : S)
    (h : d.destroyed = true) : destroyD M d s = (d, s) := by
  unfold destroyD
  rw [if_pos h]

lemma processC_destroyed {S : Type} (M : Module S) (c : CState) (s : S)
    (data : List Nat) (isLast : Bool) (h : c.destroyed = true) :
    ∃ e : ProcErr, processC M c s data isLast = (c, s, .error e) ∧ e.isLifecycle = true := by
  unfold processC
  by_cases hm : c.hasModule
  · exact ⟨.destroyedErr, by simp [hm, h], rfl⟩
  · exact ⟨.notInitialized, by simp [hm], rfl⟩

lemma processD_destroyed {S : Type} (M : Module S) (d : DState) (s : S)
    (data : List Nat) (fuel : Nat) (h : d.destroyed = true) :
    ∃ e : ProcErr, processD M d s data fuel = some (d, s, .error e) ∧ e.isLifecycle = true := by
  unfold processD
  by_cases hm : d.hasModule
  · exact ⟨.destroyedErr, by simp [hm, h], rfl⟩
  · exact ⟨.notInitialized, by simp [hm], rfl⟩

/-- C7: for both engine kinds, (a) after destroy every process call fails
with a LifecycleError, leaving instance and module state untouched;
(b) destroy is idempotent — a second destroy returns the same instance and
module state, invoking nothing; and (c) over the instrumented module, one
destroy (hence, with (b), any number of them) frees the context at most
once and the scratch buffer at most once. -/
theorem c7_destroy_contract :
    (∀ (T : Type) (M : Module T) (c : CState) (s : T) (data : List Nat) (isLast : Bool),
      ∃ e : ProcErr,
        processC M (destroyC M c s).1 (destroyC M c s).2 data isLast
          = ((destroyC M c s).1, (destroyC M c s).2, .error e) ∧ e.isLifecycle = true) ∧
    (∀ (T : Type) (M : Module T) (d : DState) (s : T) (data : List Nat) (fuel : Nat),
      ∃ e : ProcErr,
        processD M (destroyD M d s).1 (destroyD M d s).2 data fuel
          = some ((destroyD M d s).1, (destroyD M d s).2, .error e) ∧ e.isLifecycle = true) ∧
    (∀ (T : Type) (M : Module T) (c : CState) (s : T),
      destroyC M (destroyC M c s).1 (destroyC M c s).2 = destroyC M c s) ∧
    (∀ (T : Type) (M : Module T) (d : DState) (s : T),
      destroyD M (destroyD M d s).1 (destroyD M d s).2 = destroyD M d s) ∧
    (∀ (O : Oracle) (c : CState) (tr : List Ev),
      countFreeCCtx ((destroyC (traceModule O) c tr).2.drop tr.length) ≤ 1 ∧
      countFreeEv ((destroyC (traceModule O) c tr).2.drop tr.length) ≤ 1) ∧
    (∀ (O : Oracle) (d : DState) (tr : List Ev),
      countFreeDCtx ((destroyD (traceModule O) d tr).2.drop tr.length) ≤ 1 ∧
      countFreeEv ((destroyD (traceModule O) d tr).2.drop tr.length) ≤ 1) := by
  refine ⟨?_, ?_, ?_, ?_, ?_, ?_⟩
  · intro T M c s data isLast
    exact processC_destroyed M _ _ data isLast (destroyC_fields M c s).1
  · intro T M d s data fuel
    exact processD_destroyed M _ _ data fuel (destroyD_fields M d s).1
  · intro T M c s
    exact destroyC_of_destroyed M _ _ (destroyC_fields M c s).1
  · intro T M d s
    exact destroyD_of_destroyed M _ _ (destroyD_fields M d s).1
  · intro O c tr
    unfold destroyC cleanupC countFreeCCtx countFreeEv
    by_cases h : c.destroyed
    · simp [h]
    · by_cases hm : c.hasModule
      · by_cases hc : c.ctx ≠ 0 <;> by_cases hb : c.buffer ≠ 0 <;>
          simp [h, hm, hc, hb, traceModule, List.drop_left, List.countP_append,
            List.countP_cons, List.append_assoc]
      · simp [h, hm]
  · intro O d tr
    unfold destroyD cleanupD countFreeDCtx countFreeEv
    by_cases h : d.destroyed
    · simp [h]
    · by_cases hm : d.hasModule
      · by_cases hc : d.ctx ≠ 0 <;> by_cases hb : d.buffer ≠ 0 <;>
          simp [h, hm, hc, hb, traceModule, List.drop_left, List.countP_append,
            List.countP_cons, List.append_assoc]
      · simp [h, hm]

lemma processC_ctx_nonzero_not_initFailed {S : Type} (M : Module S) (c : CState) (s : S)
    (data : List Nat) (isLast : Bool)
    (hm : c.hasModule = true) (hd : c.destroyed = false) (hc : c.ctx ≠ 0) :
    isInitFailureC (processC M c s data isLast) = false := by
  unfold processC
  rw [hm, hd]
  simp only [Bool.not_true, Bool.false_eq_true, if_false, if_neg hc]
  repeat' split
  all_goals simp_all [isInitFailureC, ProcErr.isInitFailed]

lemma dLoop_error_not_initFailed {S : Type} (M : Module S)
    (ctx buffer bufferSize srcPtr dataLen : Nat) (fuel : Nat) :
    ∀ (srcPos : Nat) (chunks : List (List Nat)) (s s' : S) (e : ProcErr),
      dLoop M ctx buffer bufferSize srcPtr dataLen fuel srcPos chunks s = some (s', .error e) →
      e.isInitFailed = false := by
  induction fuel with
  | zero =>
    intro srcPos chunks s s' e h
    unfold dLoop at h
    split at h
    · exact absurd h (by simp)
    · simp at h
  | succ n ih =>
    intro srcPos chunks s s' e h
    unfold dLoop at h
    split at h
    · split at h
      split at h
      · simp only [Option.some.injEq, Prod.mk.injEq, Except.error.injEq] at h
        rw [← h.2]
        rfl
      · simp only [] at h
        split at h
        · simp only [Option.some.injEq, Prod.mk.injEq, Except.error.injEq] at h
          rw [← h.2]
          rfl
        · exact ih _ _ _ _ _ h
    · simp at h

lemma processD_ctx_nonzero_not_initFailed {S : Type} (M : Module S) (d : DState) (s : S)
    (data : List Nat) (fuel : Nat)
    (hm : d.hasModule = true) (hd : d.destroyed = false) (hc : d.ctx ≠ 0) :
    isInitFailureD (processD M d s data fuel) = false := by
  unfold processD
  rw [hm, hd]
  simp only [Bool.not_true, Bool.false_eq_true, if_false, if_neg hc]
  repeat' split
  all_goals try simp_all [isInitFailureD, ProcErr.isInitFailed]
  exact dLoop_error_not_initFailed M _ _ _ _ _ _ _ _ _ _ _ (by assumption)

lemma processC_init_step {S : Type} (M : Module S) (c : CState) (s s1 s2 : S) (h : Nat)
    (data : List Nat) (isLast : Bool)
    (hm : c.hasModule = true) (hd : c.destroyed = false) (hc : c.ctx = 0)
    (hcreate : M.createCCtx s = (s1, h)) (hne : h ≠ 0)
    (hinit : M.initCStream h c.level s1 = (s2, 0)) :
    processC M c s data isLast = processC M { c with ctx := h } s2 data isLast := by
  conv_lhs => rw [processC]
  conv_rhs => rw [processC]
  simp only [hm, hd, hc, hcreate, hne, hinit, Bool.not_true, Bool.false_eq_true, if_false,
    if_true, if_pos, if_neg, ne_eq, not_false_eq_true, CState.mk.injEq]
  simp

lemma processD_init_step {S : Type} (M : Module S) (d : DState) (s s1 s2 : S) (h : Nat)
    (data : List Nat) (fuel : Nat)
    (hm : d.hasModule = true) (hd : d.destroyed = false) (hc : d.ctx = 0)
    (hcreate : M.createDCtx s = (s1, h)) (hne : h ≠ 0) (st : Int)
    (hinit : M.initDStream h s1 = (s2, st)) (hst : st ≠ 0) :
    processD M d s data fuel = processD M { d with ctx := h } s2 data fuel := by
  conv_lhs => rw [processD]
  conv_rhs => rw [processD]
  simp only [hm, hd, hc, hcreate, hne, hinit, hst, Bool.not_true, Bool.false_eq_true, if_false,
    if_true, if_pos, if_neg, ne_eq, not_false_eq_true, DState.mk.injEq]

/-- C10: lazy stream initialization uses opposite failure polarities in
the two engines: on a fresh instance the compressor's process fails with
an InitializationError exactly when context creation returns the null
handle or the compression stream init returns a nonzero status, while the
decompressor's process fails exactly when context creation returns null or
the decompression stream init returns zero; in every failure case the
partially-created context is freed by cleanup (visible in the exact event
trace) before the InitializationError propagates, and a null context
handle takes the same cleanup-then-throw path. -/
theorem c10_init_failure_polarity (O : Oracle) (tr : List Ev) (c : CState) (d : DState)
    (data : List Nat) (isLast : Bool) (fuel : Nat)
    (hcm : c.hasModule = true) (hcd : c.destroyed = false)
    (hcc : c.ctx = 0) (hcb : c.buffer = 0)
    (hdm : d.hasModule = true) (hdd : d.destroyed = false)
    (hdc : d.ctx = 0) (hdb : d.buffer = 0) :
    (isInitFailureC (processC (traceModule O) c tr data isLast) = true
      ↔ (O.createCCtx tr = 0 ∨ O.initCStream (tr ++ [Ev.createCCtx]) ≠ 0)) ∧
    (O.createCCtx tr = 0 →
      processC (traceModule O) c tr data isLast
        = (c, tr ++ [Ev.createCCtx],
            .error (.initFailed ("Failed to create compression context")))) ∧
    (O.createCCtx tr ≠ 0 → O.initCStream (tr ++ [Ev.createCCtx]) ≠ 0 →
      processC (traceModule O) c tr data isLast
        = (c, tr ++ [Ev.createCCtx, Ev.initCStream (O.createCCtx tr) c.level,
              Ev.freeCCtx (O.createCCtx tr)],
            .error (.initFailed ("Failed to create compression context")))) ∧
    (isInitFailureD (processD (traceModule O) d tr data fuel) = true
      ↔ (O.createDCtx tr = 0 ∨ O.initDStream (tr ++ [Ev.createDCtx]) = 0)) ∧
    (O.createDCtx tr = 0 →
      processD (traceModule O) d tr data fuel
        = some (d, tr ++ [Ev.createDCtx],
            .error (.initFailed ("Failed to create decompression context")))) ∧
    (O.createDCtx tr ≠ 0 → O.initDStream (tr ++ [Ev.createDCtx]) = 0 →
      processD (traceModule O) d tr data fuel
        = some (d, tr ++ [Ev.createDCtx, Ev.initDStream (O.createDCtx tr),
              Ev.freeDCtx (O.createDCtx tr)],
            .error (.initFailed ("Failed to create decompression context")))) := by
  obtain ⟨clvl, cctx, cbuf, cbs, cdst, chm⟩ := c
  obtain ⟨dctx, dbuf, dbs, ddst, dhm⟩ := d
  dsimp only at hcm hcd hcc hcb hdm hdd hdc hdb
  subst hcm hcd hcc hcb hdm hdd hdc hdb
  have h2 : O.createCCtx tr = 0 →
      processC (traceModule O) { level := clvl, bufferSize := cbs, hasModule := true } tr
          data isLast
        = ({ level := clvl, bufferSize := cbs, hasModule := true }, tr ++ [Ev.createCCtx],
            .error (.initFailed ("Failed to create compression context"))) := by
    intro h0
    unfold processC
    simp [traceModule, cleanupC, h0]
  have h3 : O.createCCtx tr ≠ 0 → O.initCStream (tr ++ [Ev.createCCtx]) ≠ 0 →
      processC (traceModule O) { level := clvl, bufferSize := cbs, hasModule := true } tr
          data isLast
        = ({ level := clvl, bufferSize := cbs, hasModule := true },
            tr ++ [Ev.createCCtx, Ev.initCStream (O.createCCtx tr) clvl,
              Ev.freeCCtx (O.createCCtx tr)],
            .error (.initFailed ("Failed to create compression context"))) := by
    intro h0 h1
    unfold processC
    simp [traceModule, cleanupC, h0, h1, List.append_assoc]
  have h5 : O.createDCtx tr = 0 →
      processD (traceModule O) { bufferSize := dbs, hasModule := true } tr data fuel
        = some ({ bufferSize := dbs, hasModule := true }, tr ++ [Ev.createDCtx],
            .error (.initFailed ("Failed to create decompression context"))) := by
    intro h0
    unfold processD
    simp [traceModule, cleanupD, h0]
  have h6 : O.createDCtx tr ≠ 0 → O.initDStream (tr ++ [Ev.createDCtx]) = 0 →
      processD (traceModule O) { bufferSize := dbs, hasModule := true } tr data fuel
        = some ({ bufferSize := dbs, hasModule := true },
            tr ++ [Ev.createDCtx, Ev.initDStream (O.createDCtx tr),
              Ev.freeDCtx (O.createDCtx tr)],
            .error (.initFailed ("Failed to create decompression context"))) := by
    intro h0 h1
    unfold processD
    simp [traceModule, cleanupD, h0, h1, List.append_assoc]
  refine ⟨?_, h2, h3, ?_, h5, h6⟩
  · constructor
    · intro hfail
      by_cases h0 : O.createCCtx tr = 0
      · exact Or.inl h0
      · by_cases h1 : O.initCStream (tr ++ [Ev.createCCtx]) ≠ 0
        · exact Or.inr h1
        · exfalso
          rw [not_not] at h1
          rw [processC_init_step (traceModule O) _ tr (tr ++ [Ev.createCCtx]) _
              (O.createCCtx tr) data isLast rfl rfl rfl rfl h0 (by rw [← h1]; rfl)] at hfail
          rw [processC_ctx_nonzero_not_initFailed _ _ _ data isLast rfl rfl h0] at hfail
          exact Bool.false_ne_true hfail
    · intro hor
      rcases hor with h0 | h1
      · rw [h2 h0]
        rfl
      · by_cases h0 : O.createCCtx tr = 0
        · rw [h2 h0]
          rfl
        · rw [h3 h0 h1]
          rfl
  · constructor
    · intro hfail
      by_cases h0 : O.createDCtx tr = 0
      · exact Or.inl h0
      · by_cases h1 : O.initDStream (tr ++ [Ev.createDCtx]) = 0
        · exact Or.inr h1
        · exfalso
          rw [processD_init_step (traceModule O) _ tr (tr ++ [Ev.createDCtx]) _
              (O.createDCtx tr) data fuel rfl rfl rfl rfl h0 _ rfl h1] at hfail
          rw [processD_ctx_nonzero_not_initFailed _ _ _ data fuel rfl rfl h0] at hfail
          exact Bool.false_ne_true hfail
    · intro hor
      rcases hor with h0 | h1
      · rw [h5 h0]
        rfl
      · by_cases h0 : O.createDCtx tr = 0
        · rw [h5 h0]
          rfl
        · rw [h6 h0 h1]
          rfl

/-- C10 witness: with an engine whose context creation returns the null
handle, a fresh compressor's first process call fails with an
InitializationError right after the single createCCtx invocation. -/
theorem c10_init_failure_polarity_witness :
    processC (traceModule { createCCtx := fun _ => 0 })
        { level := 3, hasModule := true } [] [7] true
      = ({ level := 3, hasModule := true }, [Ev.createCCtx],
          .error (.initFailed ("Failed to create compression context"))) :=
  (c10_init_failure_polarity { createCCtx := fun _ => 0 } [] { level := 3, hasModule := true }
    { hasModule := true } [7] true 5 rfl rfl rfl rfl rfl rfl rfl rfl).2.1 rfl

lemma dLoop_zeroConsume_none : ∀ (fuel : Nat) (chunks : List (List Nat)) (s : List Ev),
    dLoop (traceModule oracleZeroConsume) 1 2 1024 4 1 fuel 0 chunks s = none := by
  intro fuel
  induction fuel with
  | zero =>
    intro chunks s
    unfold dLoop
    rw [if_pos (by decide)]
  | succ n ih =>
    intro chunks s
    unfold dLoop
    rw [if_pos (by decide)]
    have e1 : (traceModule oracleZeroConsume).decompressStream 1 2 1024 (4 + 0) (1 - 0) s
        = (s ++ [Ev.decompressStep 1 2 1024 4 1], 1) := rfl
    rw [e1]
    simp only
    rw [if_neg (by decide), if_neg (by decide), if_pos (by decide)]
    have e2 : 0 + (decodeConsumed 1).toNat = 0 := by decide
    rw [e2]
    exact ih _ _

/-- C6 counterexample: the decode loop does not always terminate — with an
engine whose every step reports zero bytes consumed and one byte produced
(packed value 1, which evades the stall guard), the loop on a 1-byte
input never finishes for any amount of fuel. -/
theorem c6_counterexample : ¬ dLoopTerminatesOn oracleZeroConsume 1 := by
  rintro ⟨fuel, hf⟩
  rw [dLoop_zeroConsume_none fuel [] []] at hf
  simp at hf

/-- C6 amended: the decode loop repeatedly invokes one decompression step
on the remaining unconsumed suffix and advances the offset by that step's
consumed count; provided every non-error step consumes at least one byte,
the loop terminates within dataLen steps of fuel — either the offset
reaches the end of the input and the collected chunks are returned with
the earlier chunks kept as a prefix in append order, or an error aborts
the call.  Without that progress assumption a step with consumed = 0 and
produced > 0 repeats at the same offset forever. -/
theorem c6_decode_loop_terminates (T : Type) (M : Module T)
    (ctx buffer bufferSize srcPtr dataLen : Nat)
    (hprog : ∀ (s : T) (pos : Nat), pos < dataLen →
      0 ≤ (M.decompressStream ctx buffer bufferSize (srcPtr + pos) (dataLen - pos) s).2 →
      1 ≤ (decodeConsumed
        ((M.decompressStream ctx buffer bufferSize (srcPtr + pos) (dataLen - pos) s).2)).toNat) :
    ∀ (fuel srcPos : Nat) (chunks : List (List Nat)) (s : T), dataLen - srcPos ≤ fuel →
      ∃ s2 res, dLoop M ctx buffer bufferSize srcPtr dataLen fuel srcPos chunks s
          = some (s2, res) ∧
        ∀ chunks2, res = .ok chunks2 → chunks <+: chunks2 := by
  intro fuel
  induction fuel with
  | zero =>
    intro srcPos chunks s hfuel
    refine ⟨s, .ok chunks, ?_, ?_⟩
    · unfold dLoop
      rw [if_neg (by omega)]
    · intro chunks2 h
      cases h
      exact List.prefix_refl chunks
  | succ n ih =>
    intro srcPos chunks s hfuel
    by_cases hpos : srcPos < dataLen
    · rcases hstep : M.decompressStream ctx buffer bufferSize (srcPtr + srcPos)
        (dataLen - srcPos) s with ⟨s1, r⟩
      by_cases hr : r < 0
      · refine ⟨s1, .error (.codec ("Decompression failed: "
          ++ M.getErrorName (decodeErrorCode r).toNat s1)), ?_, ?_⟩
        · unfold dLoop
          rw [if_pos hpos, hstep]
          simp only
          rw [if_pos hr]
        · intro chunks2 h
          exact absurd h (by simp)
      · have hcons : 1 ≤ (decodeConsumed r).toNat := by
          have := hprog s srcPos hpos (by rw [hstep]; omega)
          rw [hstep] at this
          exact this
        by_cases hstall : (decodeConsumed r).toNat = 0 ∧ (decodeProduced r).toNat = 0
        · exact absurd hstall.1 (by omega)
        · obtain ⟨s2, res, hrec, hpre⟩ := ih (srcPos + (decodeConsumed r).toNat)
            (if (decodeProduced r).toNat > 0
              then chunks ++ [M.heapSub buffer (buffer + (decodeProduced r).toNat) s1]
              else chunks) s1 (by omega)
          refine ⟨s2, res, ?_, ?_⟩
          · unfold dLoop
            rw [if_pos hpos, hstep]
            simp only
            rw [if_neg hr, if_neg hstall]
            exact hrec
          · intro chunks2 h
            have h1 := hpre chunks2 h
            refine List.IsPrefix.trans ?_ h1
            split
            · exact List.prefix_append chunks _
            · exact List.prefix_refl chunks
    · refine ⟨s, .ok chunks, ?_, ?_⟩
      · unfold dLoop
        rw [if_neg hpos]
      · intro chunks2 h
        cases h
        exact List.prefix_refl chunks

/-- C6 witness: with an engine whose every step consumes one byte, the
loop over a 2-byte input finishes within fuel 2. -/
theorem c6_decode_loop_terminates_witness :
    (dLoop (traceModule oracleOneConsume) 1 2 1024 4 2 2 0 [] []).isSome = true := by
  obtain ⟨s2, res, heq, _⟩ := c6_decode_loop_terminates (List Ev)
    (traceModule oracleOneConsume) 1 2 1024 4 2
    (fun s pos _ _ => (by decide : 1 ≤ (decodeConsumed 4294967296).toNat))
    2 0 [] [] (by decide)
  rw [heq]
  rfl

lemma getLast?_cons_of_getLast? {α : Type} (a c : α) (l : List α)
    (h : l.getLast? = some c) : (a :: l).getLast? = some c := by
  cases l with
  | nil => simp at h
  | cons b t => rw [List.getLast?_cons_cons, h]

lemma pullCLoop_spec {S : Type} (M : Module S) :
    ∀ (up : List (List Nat)) (st : PState S) (log : List (List Nat)),
      ∃ newE newLog,
        (pullCLoop M up st log).1.emitted = st.emitted ++ newE ∧
        (pullCLoop M up st log).2 = log ++ newLog ∧
        newE.length ≤ 1 ∧
        (∀ c ∈ newE, c.length > 0) ∧
        (∀ i, i + 1 < newLog.length → newLog.get? i = some []) ∧
        (∀ c, newE = [c] → newLog.getLast? = some c) := by
  intro up
  induction up with
  | nil =>
    intro st log
    unfold pullCLoop
    rcases hp : processC M st.comp st.ms [] true with ⟨c1, s1, r⟩
    rcases r with e | chunk
    · exact ⟨[], [], by simp, by simp, by simp, by simp, by simp, by simp⟩
    · by_cases hl : chunk.length > 0
      · refine ⟨[chunk], [chunk], ?_, ?_, by simp, ?_, ?_, ?_⟩
        · simp [hl]
        · simp [hl]
        · intro c hc
          rw [List.mem_singleton] at hc
          rw [hc]
          exact hl
        · intro i hi
          simp at hi
        · intro c hc
          rw [List.cons.injEq] at hc
          rw [hc.1]
          rfl
      · refine ⟨[], [chunk], ?_, ?_, by simp, by simp, ?_, by simp⟩
        · simp [hl]
        · simp [hl]
        · intro i hi
          simp at hi
  | cons v rest ih =>
    intro st log
    unfold pullCLoop
    rcases hp : processC M st.comp st.ms v false with ⟨c1, s1, r⟩
    rcases r with e | chunk
    · exact ⟨[], [], by simp, by simp, by simp, by simp, by simp, by simp⟩
    · by_cases hl : chunk.length > 0
      · refine ⟨[chunk], [chunk], ?_, ?_, by simp, ?_, ?_, ?_⟩
        · simp [hl]
        · simp [hl]
        · intro c hc
          rw [List.mem_singleton] at hc
          rw [hc]
          exact hl
        · intro i hi
          simp at hi
        · intro c hc
          rw [List.cons.injEq] at hc
          rw [hc.1]
          rfl
      · simp only
        rw [if_neg hl]
        have hchunk : chunk = [] := by
          simpa using hl
        obtain ⟨newE, newLog, h1, h2, h3, h4, h5, h6⟩ :=
          ih { st with upstream := rest, comp := c1, ms := s1 } (log ++ [chunk])
        refine ⟨newE, chunk :: newLog, ?_, ?_, h3, h4, ?_, ?_⟩
        · simpa using h1
        · rw [h2, hchunk]
          simp
        · intro i hi
          cases i with
          | zero =>
            cases hnl : newLog with
            | nil =>
              rw [hnl] at hi
              simp at hi
            | cons a t => simp [hchunk]
          | succ j =>
            have := h5 j (by simpa using hi)
            simpa using this
        · intro c hc
          exact getLast?_cons_of_getLast? chunk c newLog (h6 c hc)

/-- C8: in the compressStream pipeline each downstream pull emits at most
one chunk and never an empty one: the emitted list grows by at most one
non-empty chunk; among the outputs of the process calls made during one
pull (the returned log, one entry per upstream read plus the final flush),
every output before the last is empty — the pull keeps reading upstream
exactly while process yields empty chunks; and when a chunk is emitted it
is the last processed output, after which the pull returns and reads no
further upstream until the next pull. -/
theorem c8_pull_backpressure (T : Type) (M : Module T) (st : PState T) :
    ∃ newE,
      (pullC M st).1.emitted = st.emitted ++ newE ∧
      newE.length ≤ 1 ∧
      (∀ c ∈ newE, c.length > 0) ∧
      (∀ i, i + 1 < (pullC M st).2.length → (pullC M st).2.get? i = some []) ∧
      (∀ c, newE = [c] → (pullC M st).2.getLast? = some c) := by
  unfold pullC
  by_cases h : st.inputDone
  · rw [if_pos h]
    exact ⟨[], by simp, by simp, by simp, by simp, by simp⟩
  · rw [if_neg h]
    obtain ⟨newE, newLog, h1, h2, h3, h4, h5, h6⟩ := pullCLoop_spec M st.upstream st []
    rw [List.nil_append] at h2
    exact ⟨newE, h1, h3, h4, by rw [h2]; exact h5, by rw [h2]; exact h6⟩

lemma sumLens_append_singleton (l : List (List Nat)) (c : List Nat) :
    sumLens (l ++ [c]) = sumLens l + c.length := by
  simp [sumLens]

lemma cumSumsFrom_append_singleton (l : List (List Nat)) (c : List Nat) :
    ∀ t : Nat, cumSumsFrom t (l ++ [c]) = cumSumsFrom t l ++ [t + sumLens l + c.length] := by
  induction l with
  | nil =>
    intro t
    simp [cumSumsFrom, sumLens]
  | cons a l ih =>
    intro t
    have h1 : t + sumLens (a :: l) + c.length = t + a.length + sumLens l + c.length := by
      have : sumLens (a :: l) = a.length + sumLens l := by
        simp [sumLens]
      omega
    rw [List.cons_append, cumSumsFrom, cumSumsFrom, h1, ih (t + a.length), List.cons_append]

lemma cumSumsFrom_mem_gt (l : List (List Nat)) :
    ∀ t : Nat, (∀ c ∈ l, c.length > 0) → ∀ x ∈ cumSumsFrom t l, t < x := by
  induction l with
  | nil =>
    intro t _ x hx
    simp [cumSumsFrom] at hx
  | cons a l ih =>
    intro t hpos x hx
    rw [cumSumsFrom, List.mem_cons] at hx
    rcases hx with h | h
    · have : a.length > 0 := hpos a (by simp)
      omega
    · have h2 := ih (t + a.length) (fun c hc => hpos c (by simp [hc])) x h
      have : a.length > 0 := hpos a (by simp)
      omega

lemma cumSumsFrom_pairwise (l : List (List Nat)) :
    ∀ t : Nat, (∀ c ∈ l, c.length > 0) → List.Pairwise (· < ·) (cumSumsFrom t l) := by
  induction l with
  | nil =>
    intro t _
    simp [cumSumsFrom]
  | cons a l ih =>
    intro t hpos
    rw [cumSumsFrom]
    constructor
    · intro x hx
      exact cumSumsFrom_mem_gt l (t + a.length) (fun c hc => hpos c (by simp [hc])) x hx
    · exact ih (t + a.length) (fun c hc => hpos c (by simp [hc]))

lemma cumSumsFrom_getLast (l : List (List Nat)) :
    ∀ t : Nat, l ≠ [] → (cumSumsFrom t l).getLast? = some (t + sumLens l) := by
  induction l with
  | nil =>
    intro t h
    exact absurd rfl h
  | cons a l ih =>
    intro t _
    rw [cumSumsFrom]
    cases hl : l with
    | nil =>
      simp [hl, cumSumsFrom, sumLens]
    | cons b m =>
      have h2 := ih (t + a.length) (by simp [hl])
      subst hl
      have h3 : t + a.length + sumLens (b :: m) = t + sumLens (a :: b :: m) := by
        have : sumLens (a :: b :: m) = a.length + sumLens (b :: m) := by
          simp [sumLens]
        omega
      rw [h3] at h2
      exact getLast?_cons_of_getLast? _ _ _ h2

/-- the progress-reporting invariant of a compressStream pipeline state:
reported values are the running totals of the emitted chunks, the
totalWritten counter is their total length, and every emitted chunk is
non-empty. -/
def PInvC {S : Type} (st : PState S) : Prop :=
  st.progress = cumSumsFrom 0 st.emitted ∧
  st.totalWritten = sumLens st.emitted ∧
  ∀ c ∈ st.emitted, c.length > 0

/-- the progress-reporting invariant of a decompressStream pipeline state. -/
def PInvD {S : Type} (st : DPState S) : Prop :=
  st.progress = cumSumsFrom 0 st.emitted ∧
  st.totalWritten = sumLens st.emitted ∧
  ∀ c ∈ st.emitted, c.length > 0

lemma pInvC_push {S : Type} (st : PState S) (chunk : List Nat) (h : PInvC st)
    (hl : chunk.length > 0) :
    st.progress ++ [st.totalWritten + chunk.length] = cumSumsFrom 0 (st.emitted ++ [chunk]) ∧
    st.totalWritten + chunk.length = sumLens (st.emitted ++ [chunk]) ∧
    ∀ c ∈ st.emitted ++ [chunk], c.length > 0 := by
  obtain ⟨h1, h2, h3⟩ := h
  refine ⟨?_, ?_, ?_⟩
  · rw [cumSumsFrom_append_singleton, h1, h2]
    simp
  · rw [sumLens_append_singleton, h2]
  · intro c hc
    rw [List.mem_append] at hc
    rcases hc with hc | hc
    · exact h3 c hc
    · rw [List.mem_singleton] at hc
      rw [hc]
      exact hl

lemma pullCLoop_inv {S : Type} (M : Module S) :
    ∀ (up : List (List Nat)) (st : PState S) (log : List (List Nat)),
      PInvC st → PInvC (pullCLoop M up st log).1 := by
  intro up
  induction up with
  | nil =>
    intro st log h
    unfold pullCLoop
    rcases hp : processC M st.comp st.ms [] true with ⟨c1, s1, r⟩
    rcases r with e | chunk
    · exact h
    · by_cases hl : chunk.length > 0
      · simp only [hl, if_true, if_pos]
        exact pInvC_push st chunk h hl
      · simp only [hl, if_false, if_neg]
        exact h
  | cons v rest ih =>
    intro st log h
    unfold pullCLoop
    rcases hp : processC M st.comp st.ms v false with ⟨c1, s1, r⟩
    rcases r with e | chunk
    · exact h
    · simp only
      by_cases hl : chunk.length > 0
      · rw [if_pos hl]
        exact pInvC_push st chunk h hl
      · rw [if_neg hl]
        exact ih _ _ ⟨h.1, h.2.1, h.2.2⟩

lemma pullC_inv {S : Type} (M : Module S) (st : PState S) (h : PInvC st) :
    PInvC (pullC M st).1 := by
  unfold pullC
  by_cases hd : st.inputDone
  · rw [if_pos hd]
    exact h
  · rw [if_neg hd]
    exact pullCLoop_inv M st.upstream st [] h

lemma runC_inv {S : Type} (M : Module S) :
    ∀ (fuel : Nat) (st : PState S), PInvC st → PInvC (runC M fuel st) := by
  intro fuel
  induction fuel with
  | zero => exact fun st h => h
  | succ n ih =>
    intro st h
    unfold runC
    by_cases hd : st.inputDone
    · rw [if_pos hd]
      exact h
    · rw [if_neg hd]
      exact ih _ (pullC_inv M st h)

lemma pullD_inv {S : Type} (M : Module S) (fuelD : Nat) (st : DPState S) (h : PInvD st) :
    PInvD (pullD M fuelD st) := by
  unfold pullD
  by_cases hd : st.inputDone
  · rw [if_pos hd]
    exact h
  · rw [if_neg hd]
    cases hup : st.upstream with
    | nil => exact h
    | cons v rest =>
      simp only
      rcases hp : processD M st.decomp st.ms v fuelD with _ | ⟨d1, s1, r⟩
      · exact h
      · rcases r with e | chunk
        · exact h
        · simp only
          by_cases hl : chunk.length > 0
          · rw [if_pos hl]
            obtain ⟨h1, h2, h3⟩ := h
            refine ⟨?_, ?_, ?_⟩
            · show st.progress ++ [st.totalWritten + chunk.length]
                = cumSumsFrom 0 (st.emitted ++ [chunk])
              rw [cumSumsFrom_append_singleton, h1, h2]
              simp
            · show st.totalWritten + chunk.length = sumLens (st.emitted ++ [chunk])
              rw [sumLens_append_singleton, h2]
            · intro c hc
              rw [List.mem_append] at hc
              rcases hc with hc | hc
              · exact h3 c hc
              · rw [List.mem_singleton] at hc
                rw [hc]
                exact hl
          · rw [if_neg hl]
            exact h

lemma runD_inv {S : Type} (M : Module S) (fuelD : Nat) :
    ∀ (fuel : Nat) (st : DPState S), PInvD st → PInvD (runD M fuelD fuel st) := by
  intro fuel
  induction fuel with
  | zero => exact fun st h => h
  | succ n ih =>
    intro st h
    unfold runD
    by_cases hd : st.inputDone
    · rw [if_pos hd]
      exact h
    · rw [if_neg hd]
      exact ih _ (pullD_inv M fuelD st h)

/-- C9: progress reports are monotone with the final value equal to the
total output length.  Whole-buffer compress and decompress report exactly
one value, the output length, on success (and nothing on failure); in the
stream pipelines the reported values are exactly the running totals of the
emitted chunks, hence strictly increasing (every emitted chunk is
non-empty), and the last reported value is the total emitted length. -/
theorem c9_progress_monotonicity :
    (∀ (T : Type) (M : Module T) (s : T) (input : List Nat) (lvl : Option Int),
      List.Pairwise (· < ·) (facadeCompress M s input lvl).2.2 ∧
      (∀ out, (facadeCompress M s input lvl).2.1 = .ok out →
        (facadeCompress M s input lvl).2.2 = [out.length])) ∧
    (∀ (T : Type) (M : Module T) (s : T) (input : List Nat) (fuel : Nat) res,
      facadeDecompress M s input fuel = some res →
      List.Pairwise (· < ·) res.2.2 ∧
      (∀ out, res.2.1 = .ok out → res.2.2 = [out.length])) ∧
    (∀ (T : Type) (M : Module T) (up : List (List Nat)) (level : Int) (s : T) (fuel : Nat),
      (runC M fuel (initPState up level s)).progress
          = cumSumsFrom 0 (runC M fuel (initPState up level s)).emitted ∧
      List.Pairwise (· < ·) (runC M fuel (initPState up level s)).progress ∧
      ((runC M fuel (initPState up level s)).emitted ≠ [] →
        (runC M fuel (initPState up level s)).progress.getLast?
          = some (sumLens (runC M fuel (initPState up level s)).emitted))) ∧
    (∀ (T : Type) (M : Module T) (up : List (List Nat)) (s : T) (fuelD fuel : Nat),
      (runD M fuelD fuel (initDPState up s)).progress
          = cumSumsFrom 0 (runD M fuelD fuel (initDPState up s)).emitted ∧
      List.Pairwise (· < ·) (runD M fuelD fuel (initDPState up s)).progress ∧
      ((runD M fuelD fuel (initDPState up s)).emitted ≠ [] →
        (runD M fuelD fuel (initDPState up s)).progress.getLast?
          = some (sumLens (runD M fuelD fuel (initDPState up s)).emitted))) := by
  refine ⟨?_, ?_, ?_, ?_⟩
  · intro T M s input lvl
    unfold facadeCompress
    rcases hmk : mkZstdCompressor (lvl.getD 3) with e | c0
    · simp only [hmk]
      exact ⟨by simp, by simp⟩
    · simp only [hmk]
      rcases hp : processC M { c0 with hasModule := true } s input true with ⟨c1, s1, r⟩
      simp only [hp]
      rcases r with e | out
      · exact ⟨by simp, by simp⟩
      · refine ⟨by simp, ?_⟩
        intro out2 hout
        simp only [Except.ok.injEq] at hout
        rw [hout]
  · intro T M s input fuel res hres
    unfold facadeDecompress at hres
    simp only [] at hres
    rcases hp : processD M { hasModule := true } s input fuel with _ | ⟨d1, s1, r⟩
    · rw [hp] at hres
      simp at hres
    · rw [hp] at hres
      rcases r with e | out
      · simp only [Option.some.injEq] at hres
        rw [← hres]
        exact ⟨by simp, by simp⟩
      · simp only [Option.some.injEq] at hres
        rw [← hres]
        refine ⟨by simp, ?_⟩
        intro out2 hout
        simp only [Except.ok.injEq] at hout
        rw [hout]
  · intro T M up level s fuel
    have hinv := runC_inv M fuel (initPState up level s) ⟨rfl, rfl, by simp [initPState]⟩
    obtain ⟨h1, h2, h3⟩ := hinv
    refine ⟨h1, ?_, ?_⟩
    · rw [h1]
      exact cumSumsFrom_pairwise _ 0 h3
    · intro hne
      rw [h1, cumSumsFrom_getLast _ 0 hne]
      simp
  · intro T M up s fuelD fuel
    have hinv := runD_inv M fuelD fuel (initDPState up s) ⟨rfl, rfl, by simp [initDPState]⟩
    obtain ⟨h1, h2, h3⟩ := hinv
    refine ⟨h1, ?_, ?_⟩
    · rw [h1]
      exact cumSumsFrom_pairwise _ 0 h3
    · intro hne
      rw [h1, cumSumsFrom_getLast _ 0 hne]
      simp

lemma readBytes_length (h : Nat → Nat) (p n : Nat) : (readBytes h p n).length = n := by
  simp [readBytes]

lemma readBytes_writeBytes_mid (h : Nat → Nat) (p : Nat) (xs : List Nat) (a n : Nat)
    (hle : a + n ≤ xs.length) :
    readBytes (writeBytes h p xs) (p + a) n = (xs.drop a).take n := by
  apply List.ext_getElem
  · rw [readBytes_length, List.length_take, List.length_drop]
    omega
  · intro i h1 h2
    rw [readBytes_length] at h1
    simp only [readBytes, List.getElem_map, List.getElem_range, writeBytes]
    rw [if_pos (by omega)]
    rw [List.getElem_take, List.getElem_drop]
    rw [List.getD_eq_getElem _ _ (by omega)]
    congr 1
    omega

lemma readBytes_writeBytes_full (h : Nat → Nat) (p : Nat) (xs : List Nat) :
    readBytes (writeBytes h p xs) p xs.length = xs := by
  have := readBytes_writeBytes_mid h p xs 0 xs.length (by omega)
  rw [Nat.add_zero] at this
  rw [this, List.drop_zero, List.take_length]

lemma dec4_enc4 (n : Nat) (h : n < 4294967296) : dec4 (enc4 n) = n := by
  simp only [dec4, enc4, List.getD_cons_zero, List.getD_cons_succ]
  omega

lemma decodeConsumed_pack (a c : Nat) (hc : c < 4294967296) :
    (decodeConsumed ((a * 4294967296 + c : Nat) : Int)).toNat = a := by
  unfold decodeConsumed
  rw [Int.fdiv_eq_ediv _ (by decide)]
  omega

lemma decodeProduced_pack (a c : Nat) (hc : c < 4294967296) :
    (decodeProduced ((a * 4294967296 + c : Nat) : Int)).toNat = c := by
  unfold decodeProduced
  show (((a * 4294967296 + c : Nat) : Int) % 4294967296).toNat = c
  omega

lemma specProcessC_eval (b : List Nat) :
    processC specModule { level := 3, hasModule := true } ms0 b true
      = ({ level := 3, ctx := 1, buffer := b.length + 2, bufferSize := 1024,
           hasModule := true },
         { heap := writeBytes (writeBytes (fun _ => 0) 1 b) (b.length + 2) (enc4 b.length ++ b),
           nextPtr := b.length + 1027, nextCtx := 2 },
         .ok (enc4 b.length ++ b)) := by
  have hread : readBytes (writeBytes (fun _ => 0) 1 b) 1 b.length = b :=
    readBytes_writeBytes_full _ 1 b
  have hlen : (enc4 b.length ++ b).length = 4 + b.length := by
    simp [enc4]
    omega
  have hread2 : readBytes
      (writeBytes (writeBytes (fun _ => 0) 1 b) (b.length + 2) (enc4 b.length ++ b))
      (b.length + 2) (4 + b.length) = enc4 b.length ++ b := by
    have h2 := readBytes_writeBytes_full (writeBytes (fun _ => 0) 1 b) (b.length + 2)
      (enc4 b.length ++ b)
    rw [hlen] at h2
    exact h2
  unfold processC
  simp [specModule, ms0, hread, hlen]
  have e1 : 1 + b.length + 1 = b.length + 2 := by omega
  have e2 : 1 + b.length + 1 + 1024 + 1 = b.length + 1027 := by omega
  have henc : ((enc4 b.length).length : Int) = 4 := by norm_num [enc4]
  simp only [e1, e2, henc]
  rw [if_neg (by omega)]
  have ht : ((4 : Int) + (b.length : Int)).toNat = 4 + b.length := by omega
  rw [if_neg (by omega), ht, hread2]

lemma specCompress_eval (b : List Nat) :
    facadeCompress specModule ms0 b none
      = ({ heap := writeBytes (writeBytes (fun _ => 0) 1 b) (b.length + 2) (enc4 b.length ++ b),
           nextPtr := b.length + 1027, nextCtx := 2 },
         .ok (enc4 b.length ++ b), [(enc4 b.length ++ b).length]) := by
  unfold facadeCompress
  simp only []
  rw [show mkZstdCompressor (Option.getD none 3) = .ok { level := 3 } from rfl]
  simp only
  rw [specProcessC_eval b]
  simp [destroyC, cleanupC, specModule]

lemma readBytes_writeBytes_take (h : Nat → Nat) (p : Nat) (xs : List Nat) (n : Nat)
    (hn : n ≤ xs.length) : readBytes (writeBytes h p xs) p n = xs.take n := by
  have h2 := readBytes_writeBytes_mid h p xs 0 n (by omega)
  rw [Nat.add_zero, List.drop_zero] at h2
  exact h2

lemma specDLoop_eval (s3 : MS) (b : List Nat) (ctx p3 p4 cap : Nat)
    (hlen : b.length < 4294967296)
    (hr1 : readBytes s3.heap p4 4 = enc4 b.length)
    (hr2 : readBytes s3.heap (p4 + 4) b.length = b) :
    dLoop specModule ctx p3 cap p4 (4 + b.length) 2 0 [] s3
      = some ({ s3 with heap := writeBytes s3.heap p3 b },
          .ok (if b.length > 0 then [b] else [])) := by
  have hpack1 : (decodeConsumed (((4 + b.length) * 4294967296 + b.length : Nat) : Int)).toNat
      = 4 + b.length := decodeConsumed_pack _ _ hlen
  have hpack2 : (decodeProduced (((4 + b.length) * 4294967296 + b.length : Nat) : Int)).toNat
      = b.length := decodeProduced_pack _ _ hlen
  have hchunk : readBytes (writeBytes s3.heap p3 b) p3 (p3 + b.length - p3) = b := by
    rw [show p3 + b.length - p3 = b.length by omega]
    exact readBytes_writeBytes_full _ _ _
  have hstep : specModule.decompressStream ctx p3 cap (p4 + 0) (4 + b.length - 0) s3
      = ({ s3 with heap := writeBytes s3.heap p3 b },
         (((4 + b.length) * 4294967296 + b.length : Nat) : Int)) := by
    simp only [specModule]
    rw [Nat.add_zero, Nat.sub_zero]
    rw [if_neg (by omega), hr1, dec4_enc4 _ hlen]
    rw [if_neg (by omega), hr2]
  unfold dLoop
  rw [if_pos (by omega), hstep]
  simp only
  rw [if_neg (by omega)]
  simp only [hpack1, hpack2]
  rw [if_neg (by omega)]
  unfold dLoop
  rw [if_neg (by omega)]
  simp only [specModule, hchunk, List.nil_append]

lemma specDecompress_eval (s : MS) (b : List Nat)
    (hlen : b.length < 4294967296) (hptr : 1 ≤ s.nextPtr) (hctx : 1 ≤ s.nextCtx) :
    ∃ s2, facadeDecompress specModule s (enc4 b.length ++ b) 2
      = some (s2, .ok b, [b.length]) := by
  have hfl : (enc4 b.length ++ b).length = 4 + b.length := by
    simp [enc4]
    omega
  have h4 : (4 : Nat) = (enc4 b.length).length := rfl
  have hr1 : readBytes (writeBytes s.heap (s.nextPtr + 1025) (enc4 b.length ++ b))
      (s.nextPtr + 1025) 4 = enc4 b.length := by
    rw [readBytes_writeBytes_take _ _ _ 4 (by rw [hfl]; omega)]
    rw [h4, List.take_left]
  have hr2 : readBytes (writeBytes s.heap (s.nextPtr + 1025) (enc4 b.length ++ b))
      (s.nextPtr + 1025 + 4) b.length = b := by
    rw [readBytes_writeBytes_mid _ _ _ 4 b.length hfl.ge]
    have hdrop : (enc4 b.length ++ b).drop 4 = b := by
      rw [h4, List.drop_left]
    rw [hdrop, List.take_length]
  have hloop := specDLoop_eval
    { heap := writeBytes s.heap (s.nextPtr + 1025) (enc4 b.length ++ b),
      nextPtr := s.nextPtr + 1025 + (4 + b.length) + 1, nextCtx := s.nextCtx + 1 }
    b s.nextCtx s.nextPtr (s.nextPtr + 1025) 1024 hlen hr1 hr2
  have hconcat : concatChunks (if b.length > 0 then [b] else []) = b := by
    by_cases hb : b.length > 0
    · rw [if_pos hb]
      rfl
    · rw [if_neg hb]
      have hnil : b = [] := by
        cases b with
        | nil => rfl
        | cons a t => simp at hb
      rw [hnil]
      rfl
  have hc1 : ¬ s.nextCtx = 0 := by omega
  have hc3 : ¬ s.nextPtr + 1025 = 0 := by omega
  have hc4 : ¬ (enc4 b.length ++ b).length = 0 := by
    rw [hfl]
    omega
  have hd1 : (decide ¬s.nextPtr = 0) = true := by
    simp
    omega
  have e3 : s.nextPtr + 1024 + 1 = s.nextPtr + 1025 := by omega
  refine ⟨{
      heap := writeBytes (writeBytes s.heap (s.nextPtr + 1025) (enc4 b.length ++ b)) s.nextPtr b
      nextPtr := s.nextPtr + 1025 + (4 + b.length) + 1
      nextCtx := s.nextCtx + 1 }, ?_⟩
  have m1 : ∀ t : MS, specModule.createDCtx t
      = ({ heap := t.heap, nextPtr := t.nextPtr, nextCtx := t.nextCtx + 1 }, t.nextCtx) :=
    fun _ => rfl
  have m2 : ∀ (h : Nat) (t : MS), specModule.initDStream h t = (t, 1) := fun _ _ => rfl
  have m3 : ∀ t : MS, specModule.dStreamOutSize t = (t, 1024) := fun _ => rfl
  have m4 : ∀ (n : Nat) (t : MS), specModule.malloc n t
      = ({ heap := t.heap, nextPtr := t.nextPtr + n + 1, nextCtx := t.nextCtx }, t.nextPtr) :=
    fun _ _ => rfl
  have m5 : ∀ (p : Nat) (dat : List Nat) (t : MS), specModule.heapSet p dat t
      = { heap := writeBytes t.heap p dat, nextPtr := t.nextPtr, nextCtx := t.nextCtx } :=
    fun _ _ _ => rfl
  have m6 : ∀ (p : Nat) (t : MS), specModule.free p t = t := fun _ _ => rfl
  have m7 : ∀ (h : Nat) (t : MS), specModule.freeDCtx h t = t := fun _ _ => rfl
  unfold facadeDecompress processD
  simp [hc1, hc4, hd1, hc3, hfl, e3, m1, m2, m3, m4, m5, m6, m7]
  rw [hloop]
  simp [hconcat, destroyD, cleanupD, m6, m7]

/-- C1: round-trip — for every byte sequence b (of length below 2 ^ 32,
the range representable in the packed result's 32-bit produced field),
decompress(compress(b)) returns exactly b, where compress and decompress
are the whole-buffer facade calls running over the spec-modelled codec
engine; this includes the empty sequence and sequences spanning all byte
values 0-255. -/
theorem c1_roundtrip (b : List Nat) (h : b.length < 4294967296) :
    specRoundTrip b = some b := by
  unfold specRoundTrip
  rw [specCompress_eval b]
  simp only
  obtain ⟨s2, hd⟩ := specDecompress_eval
    { heap := writeBytes (writeBytes (fun _ => 0) 1 b) (b.length + 2) (enc4 b.length ++ b),
      nextPtr := b.length + 1027, nextCtx := 2 } b h
    (by show 1 ≤ b.length + 1027; omega) (by show 1 ≤ 2; omega)
  rw [hd]

/-- C1 witness: the three-byte sequence [5, 0, 255] (covering boundary
byte values) round-trips exactly; the empty sequence does too. -/
theorem c1_roundtrip_witness :
    (([5, 0, 255] : List Nat).length < 4294967296 ∧ specRoundTrip [5, 0, 255] = some [5, 0, 255]) ∧
    (([] : List Nat).length < 4294967296 ∧ specRoundTrip [] = some []) :=
  ⟨⟨by decide, c1_roundtrip [5, 0, 255] (by decide)⟩,
   ⟨by decide, c1_roundtrip [] (by decide)⟩⟩

end ZstdStream
